import Mathlib

/-!
Verification development for the PixStudio pattern-compositing engine
(`src/main.py`).  The compositing pipeline (`PhotoEditorGUI.composite_pattern_images`,
`run`, `export`), the region store mutation handlers
(`ImageLabel.on_placeholder_*_change`) and the preview label drawing
(`ImageLabel.draw_placeholder` / `redraw_placeholders`) are shallowly embedded
below.  Images are modelled as dimensioned pixel-buffer functions over `Nat`
(uint8 values live in `0..255`); Python float arithmetic for the contain-fit
ratio is modelled as exact rational arithmetic carried out over the integers;
NumPy basic slicing (negative-index wrapping plus clamping) and OpenCV
behaviour (`cv2.resize` output shapes, `cv2.bitwise_and` with a mask on a
freshly allocated zeroed destination, saturating `cv2.add`, `cv2.bitwise_not`)
are embedded explicitly.
-/

namespace PixStudio

/-- A three-channel pixel buffer (`numpy` array of shape `(h, w, 3)` of uint8):
`px row col channel` is the stored byte, as a natural number. -/
structure Img3 where
  h : Nat
  w : Nat
  px : Nat → Nat → Nat → Nat

/-- A single-channel mask buffer (`numpy` array of shape `(h, w)` of uint8). -/
structure Mask where
  h : Nat
  w : Nat
  px : Nat → Nat → Nat

/-- A placeholder rectangle (`QRect`): integer origin, non-negative extent.
Rubber-band geometry is normalized, and the sidebar spin boxes have range
`0..10^6`, so width and height are natural numbers; the origin can be negative
(drags may leave the widget). -/
structure Rect where
  x : Int
  y : Int
  w : Nat
  h : Nat
deriving DecidableEq

/-- Decoded pattern buffer as returned by `cv2.imread(file, cv2.IMREAD_UNCHANGED)`:
either a 2-dimensional grayscale array or a 3-dimensional array with `c`
channels (src/main.py lines 530-542 branches on `ndim` and `shape[2]`). -/
inductive PatternBuf where
  | gray2d (h w : Nat) (px : Nat → Nat → Nat)
  | nd3 (h w c : Nat) (px : Nat → Nat → Nat → Nat)

/-- `QRect.center().x()`: `(left + right) / 2` with `right = x + w - 1`, using
C++ integer division (truncation toward zero), as in Qt's `QRect::center`. -/
def rectCenterX (r : Rect) : Int :=
  Int.tdiv (r.x + (r.x + (r.w : Int) - 1)) 2

/-- `QRect.center().y()`: `(top + bottom) / 2` with `bottom = y + h - 1`,
C++ truncating division. -/
def rectCenterY (r : Rect) : Int :=
  Int.tdiv (r.y + (r.y + (r.h : Int) - 1)) 2

/-- Channel normalization and mask derivation, src/main.py lines 532-542:
a 2-dim buffer is expanded by `cv2.cvtColor(..., COLOR_GRAY2BGR)`; a
3-channel buffer gets the full-opacity mask `np.full((pw, ph), 255)` — note
the `(width, height)` transposition exactly as in the source; a 4-channel
buffer is split into color and its alpha plane; any other channel count hits
the bare `return` (the whole composite returns `None`). -/
def splitPattern : PatternBuf → Option (Img3 × Mask)
  | .gray2d h w px => some (⟨h, w, fun r c _ => px r c⟩, ⟨w, h, fun _ _ => 255⟩)
  | .nd3 h w c px =>
      if c = 3 then some (⟨h, w, px⟩, ⟨w, h, fun _ _ => 255⟩)
      else if c = 4 then some (⟨h, w, px⟩, ⟨h, w, fun r cc => px r cc 3⟩)
      else none

/-- The contain-fit dimensions of src/main.py lines 545-548 in EXACT rational
arithmetic — the reference semantics of the formula
`ratio = max(ph / height, pw / width)`, `new_h = int(ph / ratio)`,
`new_w = int(pw / ratio)` (`max` picks `ph / height` on ties as Python's
`max` does — equal fractions give equal results; truncation of a
non-negative value is the floor `ph * den / num` in natural division).
Returns `(new_h, new_w)`.  The program actually evaluates the formula in
IEEE binary64 arithmetic, modelled bit-exactly by `newDimsF` below; the two
can differ by one in the last place (see the C4 theorems).  The region-loop
embedding `compositeRegion` uses this exact form; the claims settled through
it are evaluated only at inputs where the two agree. -/
def newDims (ph pw height width : Nat) : Nat × Nat :=
  if pw * height ≤ ph * width then (ph * height / ph, pw * height / ph)
  else (ph * width / pw, pw * width / pw)

/-- Non-negative IEEE binary64 value in the normal range: zero (`mant = 0`),
or a normalized significand `mant` in `[2^52, 2^53)` scaled by `2^ex`; the
represented value is `mant * 2^ex`. -/
structure F64 where
  mant : Nat
  ex : Int
deriving DecidableEq

/-- Fuel-driven floor base-2 logarithm, written with structural recursion so
that concrete proofs can evaluate it by kernel reduction. -/
def log2Fuel : Nat → Nat → Nat
  | 0, _ => 0
  | fuel + 1, n => if n ≤ 1 then 0 else log2Fuel fuel (n / 2) + 1

/-- Floor base-2 logarithm of a positive natural number (0 at 0); the fuel
4000 covers every magnitude the binary64 range can produce here. -/
def nlog2 (n : Nat) : Nat := log2Fuel 4000 n

/-- Does the positive rational `num / den` reach `2 ^ c`? -/
def pow2LeRat (num den : Nat) (c : Int) : Bool :=
  if 0 ≤ c then den * 2 ^ c.toNat ≤ num else den ≤ num * 2 ^ (-c).toNat

/-- Floor base-2 logarithm of the positive rational `num / den`: the bit-length
difference of numerator and denominator, corrected down by one when the ratio
falls short of that power of two. -/
def ratLog2 (num den : Nat) : Int :=
  if pow2LeRat num den ((nlog2 num : Int) - (nlog2 den : Int)) then
    (nlog2 num : Int) - (nlog2 den : Int)
  else (nlog2 num : Int) - (nlog2 den : Int) - 1

/-- Round `num * 2^t / den` to the nearest integer, ties to even. -/
def rnScaled (num den : Nat) (t : Int) : Nat :=
  let a := if 0 ≤ t then num * 2 ^ t.toNat else num
  let b := if 0 ≤ t then den else den * 2 ^ (-t).toNat
  if 2 * (a % b) < b then a / b
  else if b < 2 * (a % b) then a / b + 1
  else if (a / b) % 2 = 0 then a / b else a / b + 1

/-- The correctly rounded (round-to-nearest, ties-to-even) binary64 value of
the rational `num / den`: the significand is the ratio scaled into
`[2^52, 2^53)` and rounded, with the exponent bumped when rounding overflows
to `2^53`.  Zero divisor or numerator yields zero (callers guard the divisor). -/
def roundF64 (num den : Nat) : F64 :=
  if num = 0 ∨ den = 0 then ⟨0, 0⟩
  else
    if rnScaled num den (52 - ratLog2 num den) = 2 ^ 53 then
      ⟨2 ^ 52, ratLog2 num den - 51⟩
    else ⟨rnScaled num den (52 - ratLog2 num den), ratLog2 num den - 52⟩

/-- Value comparison of two non-negative binary64 numbers. -/
def F64.le (x y : F64) : Bool :=
  if x.ex ≤ y.ex then x.mant ≤ y.mant * 2 ^ (y.ex - x.ex).toNat
  else x.mant * 2 ^ (x.ex - y.ex).toNat ≤ y.mant

/-- Python `max` on two floats: the first argument unless the second is
strictly greater. -/
def fmax (a b : F64) : F64 :=
  if F64.le b a then a else b

/-- Python float division `a / b` of two non-negative ints: the correctly
rounded binary64 quotient of the exact ratio (CPython true division is
correctly rounded). -/
def fdivNat (a b : Nat) : F64 := roundF64 a b

/-- Python float division of a non-negative int (below `2^53`, so its float
conversion is exact) by a positive float: the correctly rounded binary64
quotient of the exact ratio. -/
def fdivNatF (a : Nat) (r : F64) : F64 :=
  if 0 ≤ r.ex then roundF64 a (r.mant * 2 ^ r.ex.toNat)
  else roundF64 (a * 2 ^ (-r.ex).toNat) r.mant

/-- Python `int()` of a non-negative float: truncation toward zero. -/
def ftrunc (x : F64) : Nat :=
  if 0 ≤ x.ex then x.mant * 2 ^ x.ex.toNat else x.mant / 2 ^ (-x.ex).toNat

/-- The contain-fit computation of src/main.py lines 545-548 in IEEE binary64
arithmetic, exactly as the program executes it:
`ratio = max(ph / height, pw / width)` with float division, then
`new_h = int(ph / ratio)` and `new_w = int(pw / ratio)`.
Returns `(new_h, new_w)`. -/
def newDimsF (ph pw height width : Nat) : Nat × Nat :=
  (ftrunc (fdivNatF ph (fmax (fdivNat ph height) (fdivNat pw width))),
   ftrunc (fdivNatF pw (fmax (fdivNat ph height) (fdivNat pw width))))

/-- `cv2.resize(img, (new_w, new_h))`: the output shape is forced to
`(new_h, new_w)` regardless of the input shape; pixel values are modelled by
coordinate sampling (the default smooth filter only changes interior values,
which no property below depends on — constant inputs stay constant). -/
def cvResize (img : Img3) (nw nh : Nat) : Img3 :=
  ⟨nh, nw, fun r c ch => img.px (r * img.h / nh) (c * img.w / nw) ch⟩

/-- `cv2.resize` on a single-channel mask: output shape `(nh, nw)`. -/
def cvResizeMask (m : Mask) (nw nh : Nat) : Mask :=
  ⟨nh, nw, fun r c => m.px (r * m.h / nh) (c * m.w / nw)⟩

/-- Paste origin x, src/main.py line 553: `x1 = cx - new_w // 2`
(Python floor division of a natural number). -/
def pasteX1 (rect : Rect) (nw : Nat) : Int :=
  rectCenterX rect - ((nw / 2 : Nat) : Int)

/-- Paste origin y, src/main.py line 553: `y1 = cy - new_h // 2`. -/
def pasteY1 (rect : Rect) (nh : Nat) : Int :=
  rectCenterY rect - ((nh / 2 : Nat) : Int)

/-- The paste rectangle: origin `(x1, y1)`, extent `new_w × new_h`
(src/main.py lines 553-554). -/
def pasteRect (rect : Rect) (nw nh : Nat) : Rect :=
  ⟨pasteX1 rect nw, pasteY1 rect nh, nw, nh⟩

/-- NumPy basic-slice index resolution for a positive-step slice bound:
a negative index has the dimension added once, then the result is clamped
into `[0, dim]`. -/
def npResolve (i : Int) (dim : Nat) : Nat :=
  let j := if i < 0 then i + dim else i
  if j < 0 then 0 else if (dim : Int) < j then dim else j.toNat

/-- Length of the NumPy slice `start:stop` along a dimension of size `dim`
(positive step): resolved stop minus resolved start, floored at zero. -/
def npSliceLen (start stop : Int) (dim : Nat) : Nat :=
  npResolve stop dim - npResolve start dim

/-- One uint8 channel of the blend of src/main.py lines 556-561 at one pixel:
`inv_mask = cv2.bitwise_not(resized_mask)` is `255 - m`;
`cv2.bitwise_and(x, x, mask=t)` keeps `x` where the mask byte `t` is nonzero
and yields `0` elsewhere (the freshly allocated destination is zeroed);
`cv2.add` saturates at 255.  `b` is the base-crop byte, `p` the resized
pattern byte, `m` the resized mask byte. -/
def blendPixel (b p m : Nat) : Nat :=
  min 255 ((if 255 - m ≠ 0 then b else 0) + (if m ≠ 0 then p else 0))

/-- The crop-blend-writeback of src/main.py lines 556-563 under the
already-checked condition that the slice window has exactly the resized
extent: every base pixel inside the resolved window `[sy, sy+nh) × [sx, sx+nw)`
is replaced by the blend of itself with the corresponding resized pattern and
mask pixel; pixels outside the window are untouched. -/
def blendWrite (image : Img3) (x1 y1 : Int) (nw nh : Nat)
    (rimg : Img3) (rmask : Mask) : Img3 :=
  ⟨image.h, image.w, fun r c ch =>
    let sy := npResolve y1 image.h
    let sx := npResolve x1 image.w
    if sy ≤ r ∧ r < sy + nh ∧ sx ≤ c ∧ c < sx + nw then
      blendPixel (image.px r c ch) (rimg.px (r - sy) (c - sx) ch)
        (rmask.px (r - sy) (c - sx))
    else image.px r c ch⟩

/-- Error conditions of one loop iteration of `composite_pattern_images`. -/
inductive CompErr where
  | zeroDivision
  | resizeError
  | shapeMismatch
deriving DecidableEq

/-- Outcome of one loop iteration of `composite_pattern_images` for one region:
`unsupported` is the bare `return` for a channel count outside `{3, 4}` after
normalization (line 542); `err` is an uncaught exception (`ZeroDivisionError`
from `ph / height` with a zero extent, the `cv2.resize` error on a zero target
dimension, or the `cv2.bitwise_and` size-mismatch error when the crop window
does not have the resized extent); `ok` carries the updated base image. -/
inductive RegionStep where
  | unsupported
  | err (e : CompErr)
  | ok (i : Img3)

/-- Boolean test that a region step succeeded. -/
def stepIsOk : RegionStep → Bool
  | .ok _ => true
  | _ => false

/-- Image carried by a successful region step (dummy empty image otherwise). -/
def stepImg : RegionStep → Img3
  | .ok i => i
  | _ => ⟨0, 0, fun _ _ _ => 0⟩

/-- One iteration of the `for rect in rects` loop of
`composite_pattern_images` (src/main.py lines 524-563): channel
normalization and mask derivation, contain-fit resize, centered paste origin,
NumPy crop, masked bitwise blend, and writeback.  The crop
`image[y1:y2, x1:x2, :]` itself never raises (NumPy slices wrap negative
bounds and clamp); the subsequent `cv2.bitwise_and(cropped, cropped,
mask=inv_mask)` raises exactly when the cropped window's shape differs from
the resized `(new_h, new_w)`. -/
def compositeRegion (image : Img3) (rect : Rect) (pat : PatternBuf) : RegionStep :=
  match splitPattern pat with
  | none => .unsupported
  | some (pimg, mask) =>
    if rect.h = 0 ∨ rect.w = 0 then .err .zeroDivision
    else
      let nd := newDims pimg.h pimg.w rect.h rect.w
      if nd.1 = 0 ∨ nd.2 = 0 then .err .resizeError
      else
        let x1 := pasteX1 rect nd.2
        let y1 := pasteY1 rect nd.1
        if npSliceLen y1 (y1 + nd.1) image.h = nd.1 ∧
            npSliceLen x1 (x1 + nd.2) image.w = nd.2 then
          .ok (blendWrite image x1 y1 nd.2 nd.1
                (cvResize pimg nd.2 nd.1) (cvResizeMask mask nd.2 nd.1))
        else .err .shapeMismatch

/-- Overall result of `composite_pattern_images`: `noneResult` models the
function returning `None` (empty pattern library, or the in-loop bare
`return`); `exn` an uncaught exception escaping the loop; `img` the composite. -/
inductive CompOut where
  | noneResult
  | exn (e : CompErr)
  | img (i : Img3)

/-- The `for rect in rects` loop, threading the mutated base image. -/
def compositeLoop (image : Img3) : List (Rect × PatternBuf) → CompOut
  | [] => .img image
  | (r, p) :: rest =>
      match compositeRegion image r p with
      | .unsupported => .noneResult
      | .err e => .exn e
      | .ok image2 => compositeLoop image2 rest

/-- Application state relevant to the compositing engine: the pattern library
(`self.pattern_files`, kept as decoded buffers), an injectable random index
source for `random.choice`, the base file name parts, the freshly decoded base
image (`cv2.imread(image_file)`), the `ImageLabel` canvas buffers
(`original_image`, `image`, `image_copy`), the displayed pixmap, and the
region store (`self.rects`). -/
structure AppState where
  patternFiles : List PatternBuf
  pick : Nat → Nat
  imageFileStem : String
  imageFileSuffix : String
  baseImage : Img3
  canvasOriginal : Img3
  canvasImage : Img3
  canvasCopy : Img3
  displayed : Img3
  rects : List Rect

/-- `random.choice(self.pattern_files)` for the `i`-th region, with the random
source injected: an arbitrary index reduced modulo the library size (only
evaluated when the library is non-empty). -/
def chosenPattern (st : AppState) (i : Nat) : PatternBuf :=
  st.patternFiles.getD (st.pick i % st.patternFiles.length)
    (PatternBuf.nd3 0 0 0 (fun _ _ _ => 0))

/-- `PhotoEditorGUI.composite_pattern_images` (src/main.py lines 518-564):
`None` when the pattern library is empty, otherwise the region loop over a
fresh decode of the base image. -/
def composite_pattern_images (st : AppState) : CompOut :=
  if st.patternFiles.isEmpty then .noneResult
  else compositeLoop st.baseImage
    (st.rects.enum.map (fun p => (p.2, chosenPattern st p.1)))

/-- Outcome of `PhotoEditorGUI.run` (src/main.py lines 506-516). -/
inductive RunOutcome where
  | warnedNoPatterns
  | crashedNoneShape
  | crashedExn (e : CompErr)
  | displayedResult
deriving DecidableEq

/-- `PhotoEditorGUI.run`: with an empty library it only shows the warning
dialog; otherwise it composites and displays the result (`image.shape` on a
`None` composite, or an exception in the loop, crashes the handler).  Returns
the outcome and the new state. -/
def run (st : AppState) : RunOutcome × AppState :=
  if st.patternFiles.isEmpty then (.warnedNoPatterns, st)
  else
    match composite_pattern_images st with
    | .noneResult => (.crashedNoneShape, st)
    | .exn e => (.crashedExn e, st)
    | .img i => (.displayedResult, { st with displayed := i })

/-- Outcome of `PhotoEditorGUI.export` (src/main.py lines 566-589):
`written` carries the produced file name and the persisted pixel buffer. -/
inductive ExportOutcome where
  | warnedNoPatterns
  | failedInfo
  | crashedExn (e : CompErr)
  | written (name : String) (i : Img3)

/-- Output file name, src/main.py lines 580-581:
stem + `-PixStudio-` + timestamp + original extension. -/
def outputFileName (st : AppState) (timestamp : String) : String :=
  st.imageFileStem ++ "-PixStudio-" ++ timestamp ++ st.imageFileSuffix

/-- The file written by `export`, if any. -/
def exportWrites : ExportOutcome → Option (String × Img3)
  | .written n i => some (n, i)
  | _ => none

/-- `PhotoEditorGUI.export`: with an empty library it only shows the warning
dialog and writes nothing; a `None` composite shows the failure dialog and
writes nothing; an uncaught exception writes nothing; otherwise the composite
is written under the derived name.  State is never mutated. -/
def exportImage (st : AppState) (timestamp : String) : ExportOutcome × AppState :=
  if st.patternFiles.isEmpty then (.warnedNoPatterns, st)
  else
    match composite_pattern_images st with
    | .noneResult => (.failedInfo, st)
    | .exn e => (.crashedExn e, st)
    | .img i => (.written (outputFileName st timestamp) i, st)

/-- The four mutable region fields driven by the sidebar spin boxes. -/
inductive RegionField where
  | x
  | y
  | width
  | height
deriving DecidableEq

/-- Rebuild of the `QRect` in the four `on_placeholder_*_change` handlers
(src/main.py lines 240-278): the named field is replaced, the other three kept.
Spin-box values are non-negative (`setRange(0, 1e6)`). -/
def setRectField (r : Rect) (f : RegionField) (v : Nat) : Rect :=
  match f with
  | .x => ⟨(v : Int), r.y, r.w, r.h⟩
  | .y => ⟨r.x, (v : Int), r.w, r.h⟩
  | .width => ⟨r.x, r.y, v, r.h⟩
  | .height => ⟨r.x, r.y, r.w, v⟩

/-- The region-store mutation common to all four change handlers: guarded by
`if id < len(self.rects)`, out-of-range ids leave the store untouched. -/
def updateField (rects : List Rect) (id : Nat) (f : RegionField) (v : Nat) :
    List Rect :=
  if id < rects.length then
    rects.set id (setRectField (rects.getD id ⟨0, 0, 0, 0⟩) f v)
  else rects

/-- Label text drawn by `ImageLabel.draw_placeholder` for a given id argument:
`str(id)`, drawn at `(tl.x, tl.y - 5)` (src/main.py lines 292-294). -/
def placeholderLabelText (id : Nat) : String :=
  toString id

/-- Label position of `draw_placeholder`: just above the top-left corner. -/
def placeholderLabelPos (r : Rect) : Int × Int :=
  (r.x, r.y - 5)

/-- Label drawn for the newly created region in `ImageLabel.mouseReleaseEvent`
(src/main.py lines 220-223): the id passed to `draw_placeholder` is
`len(self.rects)` captured before the append, i.e. the new region's id, and
the text drawn is `str(id)`. -/
def creationLabelText (rects : List Rect) : String :=
  placeholderLabelText rects.length

/-- Labels drawn by `ImageLabel.redraw_placeholders` (src/main.py lines
299-302): the `i`-th region is drawn with id argument `i + 1`, so its label
text is `str(i + 1)`. -/
def redrawLabelTexts (rects : List Rect) : List String :=
  (List.range rects.length).map (fun i => placeholderLabelText (i + 1))

/-- A small concrete canvas used by the concrete application states below. -/
def sampleImg : Img3 := ⟨2, 2, fun _ _ _ => 5⟩

/-- A concrete state whose pattern library is empty. -/
def stNoPatterns : AppState :=
  ⟨[], fun _ => 0, "photo", ".png", sampleImg, sampleImg, sampleImg, sampleImg,
    sampleImg, [⟨0, 0, 2, 2⟩]⟩

/-- A concrete state with one pattern and no regions. -/
def stOnePatternNoRects : AppState :=
  ⟨[.nd3 2 3 3 (fun _ _ _ => 9)], fun _ => 0, "photo", ".png", sampleImg,
    sampleImg, sampleImg, sampleImg, sampleImg, []⟩

/-! ## Helper lemmas -/

/-- Truncating division of twice an integer by two. -/
lemma tdiv_two_mul (a : Int) : Int.tdiv (2 * a) 2 = a :=
  Int.mul_tdiv_cancel_left a (by norm_num)

/-- Truncating division of an odd non-negative integer by two. -/
lemma tdiv_two_mul_add_one (a : Int) (h : 0 ≤ a) : Int.tdiv (2 * a + 1) 2 = a := by
  rw [Int.tdiv_eq_ediv (by omega) (by norm_num)]
  omega

/-- The slice `x1 : x1 + n` over a dimension of size `d` has length exactly `n`
iff the window is fully inside the axis or lies entirely in `[-d, 0)` (where
NumPy's negative-index wrap relocates it silently). -/
lemma npSliceLen_eq_iff (x1 : Int) (n d : Nat) (hd : 0 < d) (hn : 0 < n) :
    npSliceLen x1 (x1 + n) d = n ↔
      (0 ≤ x1 ∧ x1 + (n : Int) ≤ (d : Int)) ∨
      (-(d : Int) ≤ x1 ∧ x1 + (n : Int) < 0) := by
  simp only [npSliceLen, npResolve]
  split_ifs <;> omega

/-- QRect center of a rectangle of extent `n` whose origin was placed at
`c - n / 2`: it lands back on `c` for odd `n` and one unit below `c` for
even `n` (for a center at least 1). -/
lemma qcenter_of_offset (cc : Int) (n : Nat) (hc : 1 ≤ cc) :
    Int.tdiv ((cc - ((n / 2 : Nat) : Int)) + ((cc - ((n / 2 : Nat) : Int)) + (n : Int) - 1)) 2 =
      cc - (if n % 2 = 0 then 1 else 0) := by
  by_cases hm : n % 2 = 0
  · have h1 : (cc - ((n / 2 : Nat) : Int)) + ((cc - ((n / 2 : Nat) : Int)) + (n : Int) - 1)
        = 2 * (cc - 1) + 1 := by omega
    rw [h1, tdiv_two_mul_add_one (cc - 1) (by omega)]
    simp [hm]
  · have h1 : (cc - ((n / 2 : Nat) : Int)) + ((cc - ((n / 2 : Nat) : Int)) + (n : Int) - 1)
        = 2 * cc := by omega
    rw [h1, tdiv_two_mul]
    simp [hm]

/-! ## Claim theorems -/

/-- C1 (counterexample): the claim that any positive resized-mask byte makes
the output pixel equal the pattern pixel fails at the blend step: with base
byte 100, pattern byte 50 and mask byte 10, the blended output byte is the
saturated sum 150, not the pattern byte 50, even though the mask byte is
positive. -/
theorem c1_counterexample :
    0 < (⟨1, 1, fun _ _ => 10⟩ : Mask).px 0 0 ∧
    (blendWrite ⟨1, 1, fun _ _ _ => 100⟩ 0 0 1 1 ⟨1, 1, fun _ _ _ => 50⟩
        ⟨1, 1, fun _ _ => 10⟩).px 0 0 0 ≠
      (⟨1, 1, fun _ _ _ => 50⟩ : Img3).px 0 0 0 ∧
    (blendWrite ⟨1, 1, fun _ _ _ => 100⟩ 0 0 1 1 ⟨1, 1, fun _ _ _ => 50⟩
        ⟨1, 1, fun _ _ => 10⟩).px 0 0 0 = 150 := by decide

/-- C1 (amended): at the blend step of `composite_pattern_images`, for every
pixel of the paste window, a resized-mask byte of 0 leaves the original base
byte, a resized-mask byte of 255 yields exactly the resized pattern byte, and
any intermediate mask byte yields the saturating sum of base and pattern
bytes — the blend is only binary at the mask extremes, not for every nonzero
mask value. -/
theorem c1_theorem (image : Img3) (x1 y1 : Int) (nw nh : Nat) (rimg : Img3)
    (rmask : Mask) (r c ch sy sx : Nat)
    (hsy : sy = npResolve y1 image.h) (hsx : sx = npResolve x1 image.w)
    (hr1 : sy ≤ r) (hr2 : r < sy + nh) (hc1 : sx ≤ c) (hc2 : c < sx + nw)
    (hb : image.px r c ch ≤ 255) (hp : rimg.px (r - sy) (c - sx) ch ≤ 255) :
    (rmask.px (r - sy) (c - sx) = 0 →
      (blendWrite image x1 y1 nw nh rimg rmask).px r c ch = image.px r c ch) ∧
    (rmask.px (r - sy) (c - sx) = 255 →
      (blendWrite image x1 y1 nw nh rimg rmask).px r c ch =
        rimg.px (r - sy) (c - sx) ch) ∧
    (0 < rmask.px (r - sy) (c - sx) → rmask.px (r - sy) (c - sx) < 255 →
      (blendWrite image x1 y1 nw nh rimg rmask).px r c ch =
        min 255 (image.px r c ch + rimg.px (r - sy) (c - sx) ch)) := by
  have hwin : (blendWrite image x1 y1 nw nh rimg rmask).px r c ch =
      blendPixel (image.px r c ch) (rimg.px (r - sy) (c - sx) ch)
        (rmask.px (r - sy) (c - sx)) := by
    simp only [blendWrite]
    rw [← hsy, ← hsx]
    rw [if_pos ⟨hr1, hr2, hc1, hc2⟩]
  rw [hwin]
  unfold blendPixel
  refine ⟨?_, ?_, ?_⟩
  · intro hm
    rw [hm]
    simp
    omega
  · intro hm
    rw [hm]
    simp
    omega
  · intro hm1 hm2
    rw [if_pos (by omega), if_pos (by omega)]

/-- C1 (witness): the amended blend semantics instantiated at a concrete
one-pixel window with base byte 100, pattern byte 50 and mask byte 0. -/
theorem c1_witness :
    ((⟨1, 1, fun _ _ => 0⟩ : Mask).px (0 - 0) (0 - 0) = 0 →
      (blendWrite ⟨1, 1, fun _ _ _ => 100⟩ 0 0 1 1 ⟨1, 1, fun _ _ _ => 50⟩
        ⟨1, 1, fun _ _ => 0⟩).px 0 0 0 = 100) ∧
    ((⟨1, 1, fun _ _ => 0⟩ : Mask).px (0 - 0) (0 - 0) = 255 →
      (blendWrite ⟨1, 1, fun _ _ _ => 100⟩ 0 0 1 1 ⟨1, 1, fun _ _ _ => 50⟩
        ⟨1, 1, fun _ _ => 0⟩).px 0 0 0 = 50) ∧
    (0 < (⟨1, 1, fun _ _ => 0⟩ : Mask).px (0 - 0) (0 - 0) →
      (⟨1, 1, fun _ _ => 0⟩ : Mask).px (0 - 0) (0 - 0) < 255 →
      (blendWrite ⟨1, 1, fun _ _ _ => 100⟩ 0 0 1 1 ⟨1, 1, fun _ _ _ => 50⟩
        ⟨1, 1, fun _ _ => 0⟩).px 0 0 0 = min 255 (100 + 50)) :=
  c1_theorem ⟨1, 1, fun _ _ _ => 100⟩ 0 0 1 1 ⟨1, 1, fun _ _ _ => 50⟩
    ⟨1, 1, fun _ _ => 0⟩ 0 0 0 0 0 (by decide) (by decide) (by decide) (by decide)
    (by decide) (by decide) (by decide) (by decide)

/-- C2 (counterexample): an out-of-bounds paste rectangle is not always
detected.  On a 20x20 base with a region centered at (-10, 10) and a square
4x4 pattern, the paste origin x is -11 (outside the canvas), yet the loop
iteration succeeds: NumPy's negative-index wrap silently relocates both the
crop and the writeback to columns 9..11, mutating base pixels there instead
of reporting a failure. -/
theorem c2_counterexample :
    pasteX1 ⟨-11, 9, 3, 3⟩ (newDims 4 4 3 3).2 < 0 ∧
    stepIsOk (compositeRegion ⟨20, 20, fun _ _ _ => 0⟩ ⟨-11, 9, 3, 3⟩
      (.nd3 4 4 3 (fun _ _ _ => 200))) = true ∧
    (stepImg (compositeRegion ⟨20, 20, fun _ _ _ => 0⟩ ⟨-11, 9, 3, 3⟩
      (.nd3 4 4 3 (fun _ _ _ => 200)))).px 9 9 0 ≠
      (⟨20, 20, fun _ _ _ => 0⟩ : Img3).px 9 9 0 := by decide

/-- C2 (amended): for every region whose paste rectangle falls outside the
base canvas, unless on both axes the window is either fully inside or lies
entirely in `[-dim, 0)` (the silent NumPy wrap case exhibited by the
counterexample), the loop iteration fails with the cv2 size-mismatch error
raised by `bitwise_and` — the condition is surfaced as a failure rather than
silently clamped. -/
theorem c2_theorem
    (image : Img3) (rect : Rect) (pat : PatternBuf) (pimg : Img3) (mask : Mask)
    (nh nw : Nat) (x1 y1 : Int)
    (hsplit : splitPattern pat = some (pimg, mask))
    (hnd : newDims pimg.h pimg.w rect.h rect.w = (nh, nw))
    (hx1 : x1 = pasteX1 rect nw) (hy1 : y1 = pasteY1 rect nh)
    (hrh : rect.h ≠ 0) (hrw : rect.w ≠ 0) (hnh : nh ≠ 0) (hnw : nw ≠ 0)
    (hH : 0 < image.h) (hW : 0 < image.w)
    (hoob : x1 < 0 ∨ y1 < 0 ∨ (image.w : Int) < x1 + (nw : Int) ∨
            (image.h : Int) < y1 + (nh : Int))
    (hnosilent : ¬ (((0 ≤ x1 ∧ x1 + (nw : Int) ≤ (image.w : Int)) ∨
                     (-(image.w : Int) ≤ x1 ∧ x1 + (nw : Int) < 0)) ∧
                    ((0 ≤ y1 ∧ y1 + (nh : Int) ≤ (image.h : Int)) ∨
                     (-(image.h : Int) ≤ y1 ∧ y1 + (nh : Int) < 0)))) :
    compositeRegion image rect pat = .err .shapeMismatch := by
  have hgate : ¬ (npSliceLen y1 (y1 + (nh : Int)) image.h = nh ∧
                  npSliceLen x1 (x1 + (nw : Int)) image.w = nw) := by
    intro hand
    exact hnosilent
      ⟨(npSliceLen_eq_iff x1 nw image.w hW (Nat.pos_of_ne_zero hnw)).mp hand.2,
       (npSliceLen_eq_iff y1 nh image.h hH (Nat.pos_of_ne_zero hnh)).mp hand.1⟩
  unfold compositeRegion
  rw [hsplit]
  simp only [hnd]
  rw [if_neg (by tauto)]
  rw [if_neg (by simp; omega)]
  rw [← hx1, ← hy1]
  rw [if_neg hgate]

/-- C2 (witness): a region near the right edge of a 20x20 base (paste window
columns 17..20, exceeding the canvas) makes the loop iteration fail with the
size-mismatch error. -/
theorem c2_witness :
    compositeRegion ⟨20, 20, fun _ _ _ => 0⟩ ⟨18, 8, 4, 4⟩
      (.nd3 4 4 3 (fun _ _ _ => 7)) = .err .shapeMismatch :=
  c2_theorem ⟨20, 20, fun _ _ _ => 0⟩ ⟨18, 8, 4, 4⟩
    (.nd3 4 4 3 (fun _ _ _ => 7)) ⟨4, 4, fun _ _ _ => 7⟩ ⟨4, 4, fun _ _ => 255⟩
    4 4 17 7 rfl (by decide) (by decide) (by decide) (by decide) (by decide)
    (by decide) (by decide) (by decide) (by decide) (by decide) (by decide)

/-- C3 (counterexample): for a 3-channel pattern of height 2 and width 3, the
derived full-opacity mask has shape (3, 2) — the transpose of the pattern's
(height, width) = (2, 3) — so the mask does not have the pattern's native
(rows, columns) shape. -/
theorem c3_counterexample :
    (splitPattern (.nd3 2 3 3 (fun _ _ _ => 9))).map
        (fun cm => (cm.2.h, cm.2.w)) = some (3, 2) ∧
    ((3, 2) : Nat × Nat) ≠ (2, 3) :=
  ⟨rfl, by decide⟩

/-- C3 (amended): for every pattern with exactly three color channels and no
alpha channel, the derived mask is full-opacity (value 255 everywhere) but its
(rows, columns) shape is `(width, height)` — transposed relative to the
pattern's native `(height, width)`, exactly as `np.full((pw, ph), 255)` builds
it. -/
theorem c3_theorem (h w : Nat) (px : Nat → Nat → Nat → Nat) :
    splitPattern (PatternBuf.nd3 h w 3 px) =
      some (⟨h, w, px⟩, ⟨w, h, fun _ _ => 255⟩) := rfl

/-- C4 (counterexample): in the IEEE binary64 arithmetic the program actually
uses, the tight contain-fit fails: for a 7x7 pattern in a 102x102 region,
`ratio = max(7/102, 7/102)` rounds up, `int(7 / ratio)` lands two ulps below
102 and truncates to 101 on both axes, so neither `new_w = W` nor
`new_h = H` holds (exact rational arithmetic would give the tight 102x102). -/
theorem c4_counterexample :
    newDimsF 7 7 102 102 = (101, 101) ∧
    newDims 7 7 102 102 = (102, 102) ∧
    ¬ ((newDimsF 7 7 102 102).2 = 102 ∨ (newDimsF 7 7 102 102).1 = 102) := by
  decide

/-- C4 (amended): the contain-fit dimensions are bounded by the region and
tight on one axis when the formula of lines 545-548 is evaluated in exact
rational arithmetic; the binary64 evaluation the program actually performs
keeps the containment bounds at the exhibited 7x7-in-102x102 input but loses
the tightness equality there, landing one pixel short of the region on both
axes. -/
theorem c4_theorem (ph pw height width : Nat) (hph : 0 < ph) (hpw : 0 < pw)
    (_hh : 0 < height) (_hw : 0 < width) :
    ((newDims ph pw height width).2 ≤ width ∧
     (newDims ph pw height width).1 ≤ height ∧
     ((newDims ph pw height width).2 = width ∨
      (newDims ph pw height width).1 = height)) ∧
    (newDimsF 7 7 102 102 = (101, 101) ∧
     (newDimsF 7 7 102 102).2 ≤ 102 ∧ (newDimsF 7 7 102 102).1 ≤ 102) := by
  refine ⟨?_, by decide, by decide, by decide⟩
  unfold newDims
  by_cases hc : pw * height ≤ ph * width
  · simp only [if_pos hc]
    have hcan : ph * height / ph = height := Nat.mul_div_cancel_left height hph
    have hcanw : ph * width / ph = width := Nat.mul_div_cancel_left width hph
    refine ⟨?_, ?_, Or.inr hcan⟩
    · calc pw * height / ph ≤ ph * width / ph := Nat.div_le_div_right hc
        _ = width := hcanw
    · exact le_of_eq hcan
  · simp only [if_neg hc]
    push_neg at hc
    have hcan : pw * width / pw = width := Nat.mul_div_cancel_left width hpw
    have hcanh : pw * height / pw = height := Nat.mul_div_cancel_left height hpw
    refine ⟨le_of_eq hcan, ?_, Or.inl hcan⟩
    calc ph * width / pw ≤ pw * height / pw := Nat.div_le_div_right (le_of_lt hc)
      _ = height := hcanh

/-- C4 (witness): the amended statement at the spec scenario — region 50x50,
pattern 200 wide and 100 high — where the exact dimensions are new_h = 25 and
new_w = 50, within the region with the width axis tight. -/
theorem c4_witness :
    ((newDims 100 200 50 50).2 ≤ 50 ∧ (newDims 100 200 50 50).1 ≤ 50 ∧
     ((newDims 100 200 50 50).2 = 50 ∨ (newDims 100 200 50 50).1 = 50)) ∧
    (newDimsF 7 7 102 102 = (101, 101) ∧
     (newDimsF 7 7 102 102).2 ≤ 102 ∧ (newDimsF 7 7 102 102).1 ≤ 102) :=
  c4_theorem 100 200 50 50 (by decide) (by decide) (by decide) (by decide)

/-- C5 (counterexample): for the region (0, 0, 4, 4) and a square 4x4 pattern
(resized extent 4x4), the paste rectangle's QRect center is 0 on the x axis
while the region's QRect center is 1 — the two centers differ, so the paste
rectangle is not exactly centered on the region's center. -/
theorem c5_counterexample :
    rectCenterX (pasteRect ⟨0, 0, 4, 4⟩ (newDims 4 4 4 4).2 (newDims 4 4 4 4).1) ≠
      rectCenterX ⟨0, 0, 4, 4⟩ := by decide

/-- C5 (amended): the paste rectangle is centered on the region's center only
up to parity: its QRect center coincides with the region's center exactly when
the resized extent is odd on that axis, and sits one pixel to the left/above
when the extent is even (stated for centers at least 1, i.e. windows anchored
on the canvas side of the origin). -/
theorem c5_theorem (rect : Rect) (nw nh : Nat)
    (hcx : 1 ≤ rectCenterX rect) (hcy : 1 ≤ rectCenterY rect) :
    rectCenterX (pasteRect rect nw nh) =
      rectCenterX rect - (if nw % 2 = 0 then 1 else 0) ∧
    rectCenterY (pasteRect rect nw nh) =
      rectCenterY rect - (if nh % 2 = 0 then 1 else 0) := by
  constructor
  · show Int.tdiv (pasteX1 rect nw + (pasteX1 rect nw + (nw : Int) - 1)) 2 = _
    unfold pasteX1
    exact qcenter_of_offset (rectCenterX rect) nw hcx
  · show Int.tdiv (pasteY1 rect nh + (pasteY1 rect nh + (nh : Int) - 1)) 2 = _
    unfold pasteY1
    exact qcenter_of_offset (rectCenterY rect) nh hcy

/-- C5 (witness): the amended centering equation at the region (0, 0, 4, 4)
with resized extent 4x4. -/
theorem c5_witness :
    rectCenterX (pasteRect ⟨0, 0, 4, 4⟩ 4 4) =
      rectCenterX ⟨0, 0, 4, 4⟩ - (if 4 % 2 = 0 then 1 else 0) ∧
    rectCenterY (pasteRect ⟨0, 0, 4, 4⟩ 4 4) =
      rectCenterY ⟨0, 0, 4, 4⟩ - (if 4 % 2 = 0 then 1 else 0) :=
  c5_theorem ⟨0, 0, 4, 4⟩ 4 4 (by decide) (by decide)

/-- C6: in every state whose pattern library is empty, both `run` and
`export` return only the warning outcome, write no file, and leave the whole
application state (canvas pixel buffers included) unchanged. -/
theorem c6_theorem (st : AppState) (ts : String) (h : st.patternFiles = []) :
    run st = (.warnedNoPatterns, st) ∧
    exportImage st ts = (.warnedNoPatterns, st) ∧
    exportWrites (exportImage st ts).1 = none := by
  have hemp : st.patternFiles.isEmpty = true := by rw [h]; rfl
  unfold run exportImage
  rw [hemp]
  exact ⟨rfl, rfl, rfl⟩

/-- C6 (witness): the empty-library guarantee at a concrete state. -/
theorem c6_witness :
    run stNoPatterns = (.warnedNoPatterns, stNoPatterns) ∧
    exportImage stNoPatterns "20250101120000" = (.warnedNoPatterns, stNoPatterns) ∧
    exportWrites (exportImage stNoPatterns "20250101120000").1 = none :=
  c6_theorem stNoPatterns "20250101120000" rfl

/-- C7: updating a region field with an id that is out of range of the store
is a no-op: the stored list of regions is returned unchanged, so the region
count and every existing region's four fields are untouched. -/
theorem c7_theorem (rects : List Rect) (id : Nat) (f : RegionField) (v : Nat)
    (h : rects.length ≤ id) :
    updateField rects id f v = rects ∧
    (updateField rects id f v).length = rects.length := by
  unfold updateField
  rw [if_neg (by omega)]
  exact ⟨rfl, rfl⟩

/-- C7 (witness): the out-of-range no-op at a concrete one-region store. -/
theorem c7_witness :
    updateField [⟨1, 2, 3, 4⟩] 5 .x 9 = [⟨1, 2, 3, 4⟩] ∧
    (updateField [⟨1, 2, 3, 4⟩] 5 .x 9).length = [(⟨1, 2, 3, 4⟩ : Rect)].length :=
  c7_theorem [⟨1, 2, 3, 4⟩] 5 .x 9 (by decide)

/-- C8 (code bug evaluation): at region creation the label drawn for the new
region with id 0 is the text of the id itself, the string 0, whereas the
claim (and the redraw path, which labels the same single region with the
string 1) requires id + 1 — the creation path and the redraw path disagree. -/
theorem c8_theorem :
    creationLabelText [] = "0" ∧
    redrawLabelTexts [⟨0, 0, 4, 4⟩] = ["1"] ∧
    placeholderLabelText (0 + 1) = "1" ∧
    ("0" : String) ≠ "1" := by decide

/-- C9: for every supported pattern — including 3-channel patterns whose
full-opacity mask is constructed with transposed dimensions — resizing forces
both the color image and the mask to shape (new_h, new_w), so the two have
identical dimensions at the blend step and the bitwise blend never sees a
mask/image shape mismatch. -/
theorem c9_theorem (pat : PatternBuf) (pimg : Img3) (mask : Mask)
    (_hsplit : splitPattern pat = some (pimg, mask)) (nw nh : Nat) :
    (cvResize pimg nw nh).h = nh ∧ (cvResize pimg nw nh).w = nw ∧
    (cvResizeMask mask nw nh).h = nh ∧ (cvResizeMask mask nw nh).w = nw ∧
    (cvResizeMask mask nw nh).h = (cvResize pimg nw nh).h ∧
    (cvResizeMask mask nw nh).w = (cvResize pimg nw nh).w :=
  ⟨rfl, rfl, rfl, rfl, rfl, rfl⟩

/-- C9 (witness): the shape agreement for a non-square 3-channel pattern
(2 rows, 3 columns) whose mask was built transposed (3 rows, 2 columns),
resized to a 7x5 target. -/
theorem c9_witness :
    (cvResize ⟨2, 3, fun _ _ _ => 9⟩ 5 7).h = 7 ∧
    (cvResize ⟨2, 3, fun _ _ _ => 9⟩ 5 7).w = 5 ∧
    (cvResizeMask ⟨3, 2, fun _ _ => 255⟩ 5 7).h = 7 ∧
    (cvResizeMask ⟨3, 2, fun _ _ => 255⟩ 5 7).w = 5 ∧
    (cvResizeMask ⟨3, 2, fun _ _ => 255⟩ 5 7).h = (cvResize ⟨2, 3, fun _ _ _ => 9⟩ 5 7).h ∧
    (cvResizeMask ⟨3, 2, fun _ _ => 255⟩ 5 7).w = (cvResize ⟨2, 3, fun _ _ _ => 9⟩ 5 7).w :=
  c9_theorem (.nd3 2 3 3 (fun _ _ _ => 9)) ⟨2, 3, fun _ _ _ => 9⟩
    ⟨3, 2, fun _ _ => 255⟩ rfl 5 7

/-- C10: in every state with a non-empty pattern library and an empty region
store, the composite returns exactly the decoded base image, and export
succeeds, writing that unmodified base image under the derived file name
while leaving the state unchanged. -/
theorem c10_theorem (st : AppState) (ts : String)
    (hp : st.patternFiles ≠ []) (hr : st.rects = []) :
    composite_pattern_images st = .img st.baseImage ∧
    exportImage st ts = (.written (outputFileName st ts) st.baseImage, st) := by
  have hne : st.patternFiles.isEmpty = false := by
    cases hpf : st.patternFiles with
    | nil => exact absurd hpf hp
    | cons a l => rfl
  have hcomp : composite_pattern_images st = .img st.baseImage := by
    unfold composite_pattern_images
    rw [hne, hr]
    rfl
  refine ⟨hcomp, ?_⟩
  unfold exportImage
  rw [hne, hcomp]
  rfl

/-- C10 (witness): the empty-region-store export at a concrete state with one
pattern. -/
theorem c10_witness :
    composite_pattern_images stOnePatternNoRects = .img sampleImg ∧
    exportImage stOnePatternNoRects "20250101120000" =
      (.written (outputFileName stOnePatternNoRects "20250101120000") sampleImg,
        stOnePatternNoRects) :=
  c10_theorem stOnePatternNoRects "20250101120000"
    (fun hcon => List.noConfusion hcon) rfl

end PixStudio
